import Mathlib

/-!
Shallow embedding of `src/main.py` of the `purge` utility: the deletion
ledger (TinyDB of `Document` records), the batch renumberer, the single-file
deleter `purge_file`, the tree purger `purge_dir`, the orchestrator
`purge_files`, the report aggregator `format_query`, and the database
opening / query command.  The ledger is a Lean list of documents (TinyDB
`insert` appends, `update` maps over matching documents in place).  The
filesystem is modelled explicitly: each entry carries the outcome its
`stat`/`unlink`/`rmdir` calls would produce, and `datetime.now` is a clock
function consulted once per deletion attempt.  Runs also produce an event
trace so that ordering claims (size read before unlink, rmdir after
children) are statable.
-/

/-- A zone-aware timestamp as the code uses it: `timestamp.isoformat()` and
`timestamp.date().isoformat()`. -/
structure Timestamp where
  iso : String
  dateIso : String
deriving DecidableEq

/-- The value stored in a document's `error` field: Python `True`
(unclassified failure) or an OS error code (`err.errno`). -/
inductive ErrorVal where
  | boolTrue
  | code (errno : Int)
deriving DecidableEq

/-- The `Document` TypedDict of `main.py`: one ledger record per attempted
file deletion.  `error` is `NotRequired`, hence an `Option`. -/
structure Document where
  ts : String
  date : String
  file : String
  ext : String
  size : Nat
  batch : Nat
  error : Option ErrorVal
deriving DecidableEq

/-- Embeds `update_batch_numbers(db)`: `db.update(increment("batch"),
Query().date == date.today().isoformat())` — every record whose `date`
equals today's local date gets `batch` incremented; others are untouched. -/
def updateBatchNumbers (db : List Document) (today : String) : List Document :=
  db.map (fun d => if d.date = today then { d with batch := d.batch + 1 } else d)

/-- The `no_errors` partition of `format_query`: documents whose `error`
field is absent (`doc.get("error") is None`). -/
def noErrors (docs : List Document) : List Document :=
  docs.filter (fun d => d.error = none)

/-- The `errors` partition of `format_query`: documents whose `error` field
is present. -/
def errDocs (docs : List Document) : List Document :=
  docs.filter (fun d => d.error ≠ none)

/-- The `extensions` set of `format_query`: the distinct `ext` values over
the FULL input list (error records included).  Python set order is
arbitrary; we fix the first-occurrence order. -/
def extsOf (docs : List Document) : List String :=
  (docs.map (fun d => d.ext)).dedup

/-- Embeds `sum(doc["size"] for doc in docs)` in bytes (display division by 1024²
is formatting only). -/
def sizeSum (docs : List Document) : Nat :=
  (docs.map (fun d => d.size)).sum

/-- The per-extension breakdown loop of `format_query`: only runs when
`no_errors` is non-empty; for each extension, `subdocs` filters the FULL
`docs` list (`[doc for doc in docs if doc["ext"] == extension]`), and a line
with count and size is emitted when `subdocs` is non-empty. -/
def extBreakdown (docs : List Document) : List (String × Nat × Nat) :=
  if noErrors docs = [] then []
  else
    (extsOf docs).filterMap (fun e =>
      let sub := docs.filter (fun d => d.ext = e)
      if sub = [] then none else some (e, sub.length, sizeSum sub))

/-- The data `format_query` prints: the `Deleted N files (S MB)` head line,
the per-extension lines, and the `Errors in N files.` line. -/
structure Summary where
  deleted : Option (Nat × Nat)
  byExt : List (String × Nat × Nat)
  errCount : Option Nat
deriving DecidableEq

/-- Embeds `format_query(docs, show_errors)`: partitions into `no_errors` and
`errors`, reports the total count/size over `no_errors` when non-empty, the
per-extension breakdown, and the error count when enabled and non-empty. -/
def formatQuery (docs : List Document) (showErrs : Bool) : Summary :=
  let ne := noErrors docs
  let er := errDocs docs
  { deleted := if ne = [] then none else some (ne.length, sizeSum ne)
    byExt := extBreakdown docs
    errCount := if showErrs then (if er = [] then none else some er.length) else none }

/-- Embeds `open_database(path)`: opens the ledger and immediately runs
`update_batch_numbers` on it.  Filesystem touch/mkdir effects are out of
the ledger model; the returned ledger state is what matters. -/
def openDatabase (db : List Document) (today : String) : List Document :=
  updateBatchNumbers db today

/-- The `query` command: `tinydb = open_database(db)` followed by
`format_query(tinydb.all())` — returns the mutated ledger and the summary
over all of it. -/
def queryCmd (db : List Document) (today : String) : List Document × Summary :=
  let tinydb := openDatabase db today
  (tinydb, formatQuery tinydb true)

/-- Outcome of `file.stat().st_size`: the size, or an OS failure raised by
`stat` (file vanished / inaccessible). -/
inductive StatResult where
  | ok (size : Nat)
  | statFail
deriving DecidableEq

/-- Outcome of `file.unlink()`: success, `PermissionError` with its
`errno`, or any other exception. -/
inductive UnlinkResult where
  | ok
  | permissionDenied (errno : Int)
  | otherFailure
deriving DecidableEq

/-- A directory entry's name together with the outcomes its filesystem
calls would produce.  `purge_file` works on any path, so directories carry
these too. -/
structure FileAttrs where
  name : String
  stat : StatResult
  unlink : UnlinkResult
deriving DecidableEq

/-- Observable events of a purge run, used to state ordering properties:
size read, deletion attempt, ledger insert, directory-removal attempt, and
the non-fatal error print of `purge_dir`. -/
inductive Event where
  | statRead (path : String) (size : Nat)
  | unlinkAttempt (path : String)
  | insertRec (doc : Document)
  | rmdirAttempt (path : String)
  | printedErr (path : String)
deriving DecidableEq

/-- State threaded through a purge run: the ledger, the event trace, and
the clock tick counting `datetime.now` calls. -/
structure PState where
  db : List Document
  trace : List Event
  tick : Nat
deriving DecidableEq

/-- The exceptions `purge_file` can let escape: a `stat` failure, or an
unclassified deletion failure re-raised after logging. -/
inductive Exc where
  | statExc
  | otherExc
deriving DecidableEq

/-- Result of a purge step: normal completion, or an exception propagating
with the state (ledger included) at raise time. -/
inductive PRes where
  | ok (st : PState)
  | raised (e : Exc) (st : PState)
deriving DecidableEq

/-- The state a `PRes` carries, whichever way the step ended. -/
def PRes.state : PRes → PState
  | .ok st => st
  | .raised _ st => st

/-- Embeds `name.rfind(".")` over the character list: index of the last dot. -/
def rfindDotAux : List Char → Nat → Option Nat → Option Nat
  | [], _, acc => acc
  | c :: rest, i, acc => rfindDotAux rest (i + 1) (if c = '.' then some i else acc)

/-- Python `PurePath.suffix` for a final component: the substring from the
last dot, provided that dot is neither the first nor the last character;
otherwise the empty string. -/
def pySuffix (name : String) : String :=
  let cs := name.toList
  match rfindDotAux cs 0 none with
  | none => ""
  | some i => if 0 < i ∧ i + 1 < cs.length then String.mk (cs.drop i) else ""

/-- Embeds `purge_file(file, db)`: read the size (a `stat` failure propagates with
nothing written), take the timestamp, build the candidate record with
`batch = 0`, then attempt `unlink`: on success insert the record as is; on
`PermissionError` insert it with `error = errno` and continue; on any other
failure insert it with `error = True` and re-raise. -/
def purgeFile (clock : Nat → Timestamp) (a : FileAttrs) (st : PState) : PRes :=
  match a.stat with
  | .statFail => .raised .statExc st
  | .ok size =>
    let ts := clock st.tick
    let doc : Document :=
      { ts := ts.iso, date := ts.dateIso, file := a.name, ext := pySuffix a.name,
        size := size, batch := 0, error := none }
    let st1 : PState :=
      { db := st.db, trace := st.trace ++ [.statRead a.name size, .unlinkAttempt a.name],
        tick := st.tick + 1 }
    match a.unlink with
    | .ok =>
        .ok { st1 with db := st1.db ++ [doc], trace := st1.trace ++ [.insertRec doc] }
    | .permissionDenied e =>
        let d := { doc with error := some (.code e) }
        .ok { st1 with db := st1.db ++ [d], trace := st1.trace ++ [.insertRec d] }
    | .otherFailure =>
        let d := { doc with error := some .boolTrue }
        .raised .otherExc { st1 with db := st1.db ++ [d], trace := st1.trace ++ [.insertRec d] }

/-- A `for file in files: purge_file(file, db)` loop: an exception escaping
`purge_file` aborts the remaining iterations. -/
def purgeFileList (clock : Nat → Timestamp) : List FileAttrs → PState → PRes
  | [], st => .ok st
  | f :: fs, st =>
    match purgeFile clock f st with
    | .ok st' => purgeFileList clock fs st'
    | .raised e st' => .raised e st'

/-- A directory tree entry: a file, or a directory with its children and
whether its `rmdir` call fails (raises `OSError`). -/
inductive Entry where
  | file (a : FileAttrs)
  | dir (a : FileAttrs) (children : List Entry) (rmdirFails : Bool)

/-- The name/stat/unlink attributes of an entry. -/
def Entry.attrs : Entry → FileAttrs
  | .file a => a
  | .dir a _ _ => a

/-- Embeds `child.is_dir()`. -/
def Entry.isDir : Entry → Bool
  | .file _ => false
  | .dir _ _ _ => true

mutual

/-- On a file, `purge_file`; on a directory, `purge_dir(path, db)`: process
each child (recursing into subdirectories), then attempt `path.rmdir()`; a
failing `rmdir` only prints an error and is not re-raised.  An exception
escaping a child aborts the loop and skips the `rmdir`. -/
def purgeEntry (clock : Nat → Timestamp) : Entry → PState → PRes
  | .file a, st => purgeFile clock a st
  | .dir a cs rm, st =>
    match purgeChildren clock cs st with
    | .raised e st' => .raised e st'
    | .ok st' =>
      let st2 : PState := { st' with trace := st'.trace ++ [.rmdirAttempt a.name] }
      if rm then .ok { st2 with trace := st2.trace ++ [.printedErr a.name] }
      else .ok st2

/-- The `for child in path.iterdir()` loop of `purge_dir`, and likewise the
`for dir in dirs` loop of `purge_files`: entries in order, aborting on an
escaping exception. -/
def purgeChildren (clock : Nat → Timestamp) : List Entry → PState → PRes
  | [], st => .ok st
  | e :: es, st =>
    match purgeEntry clock e st with
    | .ok st' => purgeChildren clock es st'
    | .raised ex st' => .raised ex st'

end

/-- fnmatch-style matching for the glob patterns the tool builds (literal
characters and `*`; `*` matches any, possibly empty, character sequence),
applied to a child's name as `Path.glob` does for a single-component
pattern.  The recursion is fueled to stay structural; every step shrinks
`pattern + name` by at least one, so fuel `|pattern| + |name| + 1` never
runs out. -/
def globMatchF : Nat → List Char → List Char → Bool
  | 0, _, _ => false
  | _ + 1, [], [] => true
  | _ + 1, [], _ :: _ => false
  | k + 1, '*' :: ps, [] => globMatchF k ps []
  | k + 1, '*' :: ps, n :: ns => globMatchF k ps (n :: ns) || globMatchF k ('*' :: ps) ns
  | _ + 1, _ :: _, [] => false
  | k + 1, p :: ps, n :: ns => (p = n) && globMatchF k ps ns

/-- Glob matching on names with adequate fuel. -/
def globMatch (pat name : String) : Bool :=
  globMatchF (pat.length + name.length + 1) pat.toList name.toList

/-- Whether `root_path.glob(f"*.{ext}")` matches a directory entry: the
glob matches names, regardless of the entry's kind. -/
def extMatches (ext : String) (e : Entry) : Bool :=
  globMatch ("*." ++ ext) e.attrs.name

/-- The extension pass of `purge_files`: for each extension, glob `*.{ext}`
over the root's children and pass every match to `purge_file`. -/
def extPass (clock : Nat → Timestamp) : List String → List Entry → PState → PRes
  | [], _, st => .ok st
  | ext :: rest, children, st =>
    match purgeFileList clock ((children.filter (extMatches ext)).map Entry.attrs) st with
    | .ok st' => extPass clock rest children st'
    | .raised e st' => .raised e st'

/-- The directory pass of `purge_files`: for each pattern, glob over the
root's children, keep only directories, and pass each to `purge_dir`. -/
def patPass (clock : Nat → Timestamp) : List String → List Entry → PState → PRes
  | [], _, st => .ok st
  | p :: rest, children, st =>
    match purgeChildren clock
        (children.filter (fun e => globMatch p e.attrs.name && e.isDir)) st with
    | .ok st' => patPass clock rest children st'
    | .raised ex st' => .raised ex st'

/-- Embeds `purge_files(root_path, exts, directory_pattern, db)`: the extension
pass in full, then the directory-pattern pass. -/
def purgeFiles (clock : Nat → Timestamp) (children : List Entry)
    (exts pats : List String) (st : PState) : PRes :=
  match extPass clock exts children st with
  | .ok st' => patPass clock pats children st'
  | .raised e st' => .raised e st'

/-- The size `stat` reported when it succeeded (unused default otherwise). -/
def statSize : StatResult → Nat
  | .ok n => n
  | .statFail => 0

/-- The record `purge_file` inserts on a successful deletion. -/
def mkSuccessDoc (ts : Timestamp) (a : FileAttrs) (sz : Nat) : Document :=
  { ts := ts.iso, date := ts.dateIso, file := a.name, ext := pySuffix a.name,
    size := sz, batch := 0, error := none }

/-- The records an all-successful `purge_file` loop appends, first file at
clock tick `k`. -/
def successDocs (clock : Nat → Timestamp) : Nat → List FileAttrs → List Document
  | _, [] => []
  | k, f :: fs =>
    mkSuccessDoc (clock k) f (statSize f.stat) :: successDocs clock (k + 1) fs

/-- The events an all-successful `purge_file` loop appends: per file, size
read, then the unlink attempt, then the insert. -/
def successTrace (clock : Nat → Timestamp) : Nat → List FileAttrs → List Event
  | _, [] => []
  | k, f :: fs =>
    [.statRead f.name (statSize f.stat), .unlinkAttempt f.name,
     .insertRec (mkSuccessDoc (clock k) f (statSize f.stat))] ++ successTrace clock (k + 1) fs

/-- No directory-removal attempt occurs among these events. -/
def noRmdir (t : List Event) : Prop :=
  ∀ p, Event.rmdirAttempt p ∉ t

/-! ### Helper lemmas -/

theorem updateBatchNumbers_length (db : List Document) (today : String) :
    (updateBatchNumbers db today).length = db.length := by
  simp [updateBatchNumbers]

theorem updateBatchNumbers_get (db : List Document) (today : String) (i : Nat)
    (h : i < db.length) (h' : i < (updateBatchNumbers db today).length) :
    (updateBatchNumbers db today).get ⟨i, h'⟩ =
      (if (db.get ⟨i, h⟩).date = today
       then { db.get ⟨i, h⟩ with batch := (db.get ⟨i, h⟩).batch + 1 }
       else db.get ⟨i, h⟩) := by
  simp [updateBatchNumbers, List.get_eq_getElem, List.getElem_map]

theorem updateBatchNumbers_no_batch_zero (db : List Document) (today : String) :
    ∀ d ∈ updateBatchNumbers db today, d.date = today → d.batch ≠ 0 := by
  intro d hd hdate
  simp only [updateBatchNumbers, List.mem_map] at hd
  obtain ⟨a, -, ha⟩ := hd
  by_cases hc : a.date = today
  · rw [if_pos hc] at ha
    subst ha
    simp
  · rw [if_neg hc] at ha
    subst ha
    exact absurd hdate hc

/-! ### Claims about the batch renumberer -/

/-- C1: after `update_batch_numbers` runs once, every pre-existing record
whose `date` equals today's local date has its `batch` exactly 1 greater
than before (all other fields unchanged), and every record whose `date`
differs from today is completely unchanged; no record is added or
removed. -/
theorem C1_update_batch_numbers (db : List Document) (today : String) (i : Nat)
    (h : i < db.length) (h' : i < (updateBatchNumbers db today).length) :
    ((db.get ⟨i, h⟩).date = today →
      (updateBatchNumbers db today).get ⟨i, h'⟩ =
        { db.get ⟨i, h⟩ with batch := (db.get ⟨i, h⟩).batch + 1 }) ∧
    ((db.get ⟨i, h⟩).date ≠ today →
      (updateBatchNumbers db today).get ⟨i, h'⟩ = db.get ⟨i, h⟩) ∧
    (updateBatchNumbers db today).length = db.length := by
  refine ⟨fun hd => ?_, fun hd => ?_, updateBatchNumbers_length db today⟩
  · rw [updateBatchNumbers_get db today i h h', if_pos hd]
  · rw [updateBatchNumbers_get db today i h h', if_neg hd]

def dToday : Document :=
  { ts := "t0", date := "2026-10-12", file := "a.tmp", ext := ".tmp",
    size := 1, batch := 3, error := none }

def dOther : Document :=
  { ts := "t1", date := "2026-10-11", file := "b.log", ext := ".log",
    size := 2, batch := 0, error := none }

def dbW : List Document := [dToday, dOther]

/-- Witness for C1 at a concrete two-record ledger. -/
theorem C1_witness :
    (updateBatchNumbers dbW "2026-10-12").get ⟨0, by decide⟩ = { dToday with batch := 4 } ∧
    (updateBatchNumbers dbW "2026-10-12").get ⟨1, by decide⟩ = dOther := by
  constructor
  · exact (C1_update_batch_numbers dbW "2026-10-12" 0 (by decide) (by decide)).1 (by decide)
  · exact (C1_update_batch_numbers dbW "2026-10-12" 1 (by decide) (by decide)).2.1 (by decide)

/-- C10: the `query` command opens the database, which runs the batch
renumberer: every record with `date = today` has its `batch` incremented,
records of other dates are unchanged, and afterwards no record of today
sits in batch 0. -/
theorem C10_query_mutates_ledger (db : List Document) (today : String) :
    (queryCmd db today).1 = updateBatchNumbers db today ∧
    (∀ i (h : i < db.length) (h' : i < (queryCmd db today).1.length),
      ((db.get ⟨i, h⟩).date = today →
        (queryCmd db today).1.get ⟨i, h'⟩ =
          { db.get ⟨i, h⟩ with batch := (db.get ⟨i, h⟩).batch + 1 }) ∧
      ((db.get ⟨i, h⟩).date ≠ today →
        (queryCmd db today).1.get ⟨i, h'⟩ = db.get ⟨i, h⟩)) ∧
    (∀ d ∈ (queryCmd db today).1, d.date = today → d.batch ≠ 0) := by
  refine ⟨rfl, fun i h h' => ⟨fun hd => ?_, fun hd => ?_⟩, ?_⟩
  · exact (updateBatchNumbers_get db today i h h').trans (if_pos hd)
  · exact (updateBatchNumbers_get db today i h h').trans (if_neg hd)
  · exact updateBatchNumbers_no_batch_zero db today

/-- Witness for C10 at a concrete two-record ledger. -/
theorem C10_witness :
    (queryCmd dbW "2026-10-12").1.get ⟨0, by decide⟩ = { dToday with batch := 4 } ∧
    (∀ d ∈ (queryCmd dbW "2026-10-12").1, d.date = "2026-10-12" → d.batch ≠ 0) := by
  constructor
  · exact ((C10_query_mutates_ledger dbW "2026-10-12").2.1 0 (by decide) (by decide)).1 (by decide)
  · exact (C10_query_mutates_ledger dbW "2026-10-12").2.2

/-! ### Claims about the deleter `purge_file` -/

/-- C2: a deletion hitting a permission error with OS code `e` inserts
exactly one record, carrying `error = e`; the error is not re-raised and
the loop goes on with the remaining files. -/
theorem C2_permission_error_logged_and_continues (clock : Nat → Timestamp)
    (a : FileAttrs) (st : PState) (sz : Nat) (e : Int)
    (hs : a.stat = .ok sz) (hu : a.unlink = .permissionDenied e) :
    ∃ st', purgeFile clock a st = .ok st' ∧
      st'.db = st.db ++
        [{ ts := (clock st.tick).iso, date := (clock st.tick).dateIso, file := a.name,
           ext := pySuffix a.name, size := sz, batch := 0, error := some (.code e) }] ∧
      ∀ rest, purgeFileList clock (a :: rest) st = purgeFileList clock rest st' := by
  simp only [purgeFile, hs, hu]
  refine ⟨_, rfl, by simp, fun rest => ?_⟩
  simp [purgeFileList, purgeFile, hs, hu]

def clockW : Nat → Timestamp :=
  fun _ => { iso := "2026-10-12T10:00:00+03:00", dateIso := "2026-10-12" }

def st0 : PState := { db := [], trace := [], tick := 0 }

def aPerm : FileAttrs := { name := "a.tmp", stat := .ok 7, unlink := .permissionDenied 13 }

/-- Witness for C2 at a concrete file denied with errno 13. -/
theorem C2_witness :
    ∃ st', purgeFile clockW aPerm st0 = .ok st' ∧
      st'.db = st0.db ++
        [{ ts := (clockW st0.tick).iso, date := (clockW st0.tick).dateIso, file := aPerm.name,
           ext := pySuffix aPerm.name, size := 7, batch := 0, error := some (.code 13) }] ∧
      ∀ rest, purgeFileList clockW (aPerm :: rest) st0 = purgeFileList clockW rest st' :=
  C2_permission_error_logged_and_continues clockW aPerm st0 7 13 rfl rfl

/-- C3: a deletion hitting any non-permission failure inserts exactly one
record with `error = True`, then re-raises, so the loop stops: no further
file of the pass is processed, whatever the rest of the list is. -/
theorem C3_other_failure_logged_then_raises (clock : Nat → Timestamp)
    (a : FileAttrs) (st : PState) (sz : Nat)
    (hs : a.stat = .ok sz) (hu : a.unlink = .otherFailure) :
    ∃ st', purgeFile clock a st = .raised .otherExc st' ∧
      st'.db = st.db ++
        [{ ts := (clock st.tick).iso, date := (clock st.tick).dateIso, file := a.name,
           ext := pySuffix a.name, size := sz, batch := 0, error := some .boolTrue }] ∧
      ∀ rest, purgeFileList clock (a :: rest) st = .raised .otherExc st' := by
  simp only [purgeFile, hs, hu]
  refine ⟨_, rfl, by simp, fun rest => ?_⟩
  simp [purgeFileList, purgeFile, hs, hu]

def aOther : FileAttrs := { name := "c.tmp", stat := .ok 9, unlink := .otherFailure }

/-- Witness for C3 at a concrete file whose unlink fails unclassified. -/
theorem C3_witness :
    ∃ st', purgeFile clockW aOther st0 = .raised .otherExc st' ∧
      st'.db = st0.db ++
        [{ ts := (clockW st0.tick).iso, date := (clockW st0.tick).dateIso, file := aOther.name,
           ext := pySuffix aOther.name, size := 9, batch := 0, error := some .boolTrue }] ∧
      ∀ rest, purgeFileList clockW (aOther :: rest) st0 = .raised .otherExc st' :=
  C3_other_failure_logged_then_raises clockW aOther st0 9 rfl rfl

/-- C6: when reading the size fails, `purge_file` propagates the failure
with the state untouched — no record is written (ledger identical), and
the loop aborts whatever files remain. -/
theorem C6_stat_failure_aborts_unlogged (clock : Nat → Timestamp)
    (a : FileAttrs) (st : PState) (hs : a.stat = .statFail) :
    purgeFile clock a st = .raised .statExc st ∧
    ∀ rest, purgeFileList clock (a :: rest) st = .raised .statExc st := by
  constructor
  · simp [purgeFile, hs]
  · intro rest
    simp [purgeFileList, purgeFile, hs]

def aGone : FileAttrs := { name := "gone.tmp", stat := .statFail, unlink := .ok }

/-- Witness for C6 at a concrete vanished file. -/
theorem C6_witness :
    purgeFile clockW aGone st0 = .raised .statExc st0 ∧
    ∀ rest, purgeFileList clockW (aGone :: rest) st0 = .raised .statExc st0 :=
  C6_stat_failure_aborts_unlogged clockW aGone st0 rfl

theorem purgeFileList_success (clock : Nat → Timestamp) (files : List FileAttrs) :
    ∀ st : PState,
      (∀ f ∈ files, f.stat = .ok (statSize f.stat)) →
      (∀ f ∈ files, f.unlink = .ok) →
      purgeFileList clock files st =
        .ok ⟨st.db ++ successDocs clock st.tick files,
             st.trace ++ successTrace clock st.tick files,
             st.tick + files.length⟩ := by
  induction files with
  | nil =>
    intro st _ _
    simp [purgeFileList, successDocs, successTrace]
  | cons f fs ih =>
    intro st hs hu
    have hsf : f.stat = .ok (statSize f.stat) := hs f (by simp)
    have huf : f.unlink = .ok := hu f (by simp)
    have hs' : ∀ g ∈ fs, g.stat = .ok (statSize g.stat) := fun g hg => hs g (by simp [hg])
    have hu' : ∀ g ∈ fs, g.unlink = .ok := fun g hg => hu g (by simp [hg])
    cases hstat : f.stat with
    | statFail =>
      rw [hstat] at hsf
      exact absurd hsf (by simp)
    | ok sz =>
      simp only [purgeFileList, purgeFile, hstat, huf]
      rw [ih _ hs' hu']
      simp only [successDocs, successTrace, mkSuccessDoc, hstat, statSize,
        PRes.ok.injEq, PState.mk.injEq, List.append_assoc, List.cons_append,
        List.nil_append, List.length_cons]
      exact ⟨trivial, trivial, by omega⟩

theorem successDocs_length (clock : Nat → Timestamp) (files : List FileAttrs) :
    ∀ k, (successDocs clock k files).length = files.length := by
  induction files with
  | nil => intro k; simp [successDocs]
  | cons f fs ih => intro k; simp [successDocs, ih]

theorem successDocs_mem (clock : Nat → Timestamp) (today : String)
    (hd : ∀ n, (clock n).dateIso = today) (files : List FileAttrs) :
    ∀ k, ∀ d ∈ successDocs clock k files,
      d.batch = 0 ∧ d.date = today ∧ d.error = none := by
  induction files with
  | nil => intro k d hdm; simp [successDocs] at hdm
  | cons f fs ih =>
    intro k d hdm
    simp only [successDocs, List.mem_cons] at hdm
    rcases hdm with h | h
    · subst h
      simp [mkSuccessDoc, hd]
    · exact ih (k + 1) d h

/-- C4: a pass over N files in which every deletion succeeds appends
exactly N records (one per file, nothing else touched), each with
`batch = 0`, `date` = today, `error` absent, and `size` the value `stat`
read before the unlink was attempted (per file the trace is: size read,
then unlink attempt, then insert). -/
theorem C4_all_success_inserts_n_records (clock : Nat → Timestamp)
    (files : List FileAttrs) (st : PState) (today : String)
    (hs : ∀ f ∈ files, f.stat = .ok (statSize f.stat))
    (hu : ∀ f ∈ files, f.unlink = .ok)
    (hd : ∀ n, (clock n).dateIso = today) :
    purgeFileList clock files st =
      .ok ⟨st.db ++ successDocs clock st.tick files,
           st.trace ++ successTrace clock st.tick files,
           st.tick + files.length⟩ ∧
    (successDocs clock st.tick files).length = files.length ∧
    (∀ d ∈ successDocs clock st.tick files, d.batch = 0 ∧ d.date = today ∧ d.error = none) :=
  ⟨purgeFileList_success clock files st hs hu,
   successDocs_length clock files st.tick,
   successDocs_mem clock today hd files st.tick⟩

def fOk1 : FileAttrs := { name := "a.tmp", stat := .ok 10485760, unlink := .ok }

def fOk2 : FileAttrs := { name := "b.tmp", stat := .ok 3, unlink := .ok }

/-- Witness for C4 at a concrete two-file all-success run. -/
theorem C4_witness :
    purgeFileList clockW [fOk1, fOk2] st0 =
      .ok ⟨st0.db ++ successDocs clockW st0.tick [fOk1, fOk2],
           st0.trace ++ successTrace clockW st0.tick [fOk1, fOk2],
           st0.tick + 2⟩ ∧
    (successDocs clockW st0.tick [fOk1, fOk2]).length = 2 ∧
    (∀ d ∈ successDocs clockW st0.tick [fOk1, fOk2],
      d.batch = 0 ∧ d.date = "2026-10-12" ∧ d.error = none) := by
  have h := C4_all_success_inserts_n_records clockW [fOk1, fOk2] st0 "2026-10-12"
    (by decide) (by decide) (fun n => rfl)
  exact ⟨h.1, h.2.1, h.2.2⟩

/-! ### Claims about the report aggregator -/

/-- C9: the reported aggregates of `format_query` — deleted-file count and
total size — are invariant under any reordering of the input records. -/
theorem C9_aggregates_invariant_under_permutation (l1 l2 : List Document)
    (h : l1.Perm l2) :
    (noErrors l1).length = (noErrors l2).length ∧
    sizeSum (noErrors l1) = sizeSum (noErrors l2) ∧
    (formatQuery l1 true).deleted = (formatQuery l2 true).deleted := by
  have hp : (noErrors l1).Perm (noErrors l2) := h.filter _
  have hlen := hp.length_eq
  have hsum : sizeSum (noErrors l1) = sizeSum (noErrors l2) := (hp.map _).sum_eq
  refine ⟨hlen, hsum, ?_⟩
  by_cases h1 : noErrors l1 = []
  · have h2 : noErrors l2 = [] := by
      have hp' := hp
      rw [h1] at hp'
      exact hp'.symm.eq_nil
    simp [formatQuery, h1, h2]
  · have h2 : noErrors l2 ≠ [] := by
      intro hc
      rw [hc] at hp
      exact h1 hp.eq_nil
    simp [formatQuery, h1, h2, hlen, hsum]

/-- Witness for C9 at a concrete two-record swap. -/
theorem C9_witness :
    (noErrors [dToday, dOther]).length = (noErrors [dOther, dToday]).length ∧
    sizeSum (noErrors [dToday, dOther]) = sizeSum (noErrors [dOther, dToday]) ∧
    (formatQuery [dToday, dOther] true).deleted =
      (formatQuery [dOther, dToday] true).deleted :=
  C9_aggregates_invariant_under_permutation [dToday, dOther] [dOther, dToday]
    (List.Perm.swap dOther dToday [])

def errDocA : Document :=
  { ts := "t2", date := "2026-10-12", file := "x.a", ext := ".a",
    size := 5, batch := 0, error := some (.code 13) }

def okDocB : Document :=
  { ts := "t3", date := "2026-10-12", file := "y.b", ext := ".b",
    size := 3, batch := 0, error := none }

def docsC5 : List Document := [errDocA, okDocB]

/-- C5 counterexample: with one error record of extension `.a` and one
non-error record of extension `.b`, the breakdown emits a line for `.a`
counting the error record's count and size, although no non-error record
has extension `.a` — error records do contribute lines, counts and sizes,
contrary to the claim. -/
theorem C5_counterexample :
    (".a", 1, 5) ∈ (formatQuery docsC5 true).byExt ∧
    (∀ d ∈ noErrors docsC5, d.ext ≠ ".a") := by
  decide

theorem filterMap_eq_map_of_forall {α β : Type} (f : α → Option β) (g : α → β)
    (l : List α) (h : ∀ x ∈ l, f x = some (g x)) : l.filterMap f = l.map g := by
  induction l with
  | nil => rfl
  | cons a l ih =>
    have ha := h a (by simp)
    simp [List.filterMap_cons, ha, ih (fun x hx => h x (by simp [hx]))]

/-- C5 amended: when at least one non-error record exists, the
per-extension breakdown groups ALL input records — error records included —
by extension, reporting per extension the count and total size over every
record (error or not) with that extension, and every extension occurring
anywhere in the input appears exactly once. -/
theorem C5_breakdown_over_all_records (docs : List Document)
    (h : noErrors docs ≠ []) :
    (formatQuery docs true).byExt =
      (extsOf docs).map (fun e =>
        (e, (docs.filter (fun d => d.ext = e)).length,
         sizeSum (docs.filter (fun d => d.ext = e)))) ∧
    (∀ e, e ∈ extsOf docs ↔ ∃ d ∈ docs, d.ext = e) ∧
    (extsOf docs).Nodup := by
  refine ⟨?_, ?_, List.nodup_dedup _⟩
  · show extBreakdown docs = _
    unfold extBreakdown
    rw [if_neg h]
    apply filterMap_eq_map_of_forall
    intro e he
    have hne : docs.filter (fun d => d.ext = e) ≠ [] := by
      simp only [extsOf, List.mem_dedup, List.mem_map] at he
      obtain ⟨d, hd, rfl⟩ := he
      intro hc
      have hmem : d ∈ docs.filter (fun x => x.ext = d.ext) := by
        simp [List.mem_filter, hd]
      rw [hc] at hmem
      exact absurd hmem (List.not_mem_nil d)
    show (if docs.filter (fun d => d.ext = e) = [] then none
          else some (e, (docs.filter (fun d => d.ext = e)).length,
            sizeSum (docs.filter (fun d => d.ext = e)))) = _
    rw [if_neg hne]
  · intro e
    simp [extsOf]

/-- Witness for the amended C5 at the concrete two-record input. -/
theorem C5_witness :
    (formatQuery docsC5 true).byExt =
      (extsOf docsC5).map (fun e =>
        (e, (docsC5.filter (fun d => d.ext = e)).length,
         sizeSum (docsC5.filter (fun d => d.ext = e)))) ∧
    (∀ e, e ∈ extsOf docsC5 ↔ ∃ d ∈ docsC5, d.ext = e) ∧
    (extsOf docsC5).Nodup :=
  C5_breakdown_over_all_records docsC5 (by decide)

/-! ### Claims about the tree purger `purge_dir` -/

/-- C7: `purge_dir` attempts `rmdir` only after the loop over its children
has completed without an escaping exception (on an exception the removal is
never attempted); a failing `rmdir` is non-fatal — the result is normal
completion, an error print is the only extra event, the ledger gets no
record for the directory itself — and the loop over siblings goes on after
a directory entry completes normally. -/
theorem C7_rmdir_last_nonfatal_unlogged (clock : Nat → Timestamp) (a : FileAttrs)
    (cs : List Entry) (rm : Bool) (st : PState) :
    (∀ st1, purgeChildren clock cs st = .ok st1 →
      ∃ st2, purgeEntry clock (.dir a cs rm) st = .ok st2 ∧
        st2.db = st1.db ∧
        st2.trace = st1.trace ++ [Event.rmdirAttempt a.name] ++
          (if rm then [Event.printedErr a.name] else [])) ∧
    (∀ e st1, purgeChildren clock cs st = .raised e st1 →
      purgeEntry clock (.dir a cs rm) st = .raised e st1) ∧
    (∀ d rest st', purgeEntry clock d st = .ok st' →
      purgeChildren clock (d :: rest) st = purgeChildren clock rest st') := by
  refine ⟨fun st1 h1 => ?_, fun e st1 h1 => ?_, fun d rest st' h' => ?_⟩
  · cases rm with
    | false =>
      refine ⟨{ st1 with trace := st1.trace ++ [Event.rmdirAttempt a.name] },
        ?_, rfl, by simp⟩
      simp [purgeEntry, h1]
    | true =>
      refine ⟨{ st1 with
          trace := st1.trace ++ [Event.rmdirAttempt a.name, Event.printedErr a.name] },
        ?_, rfl, by simp⟩
      simp [purgeEntry, h1]
  · simp [purgeEntry, h1]
  · simp [purgeChildren, h']

def aCache : FileAttrs := { name := "cache", stat := .ok 0, unlink := .ok }

/-- Witness for C7 at a concrete empty directory whose `rmdir` fails. -/
theorem C7_witness :
    ∃ st2, purgeEntry clockW (.dir aCache [] true) st0 = .ok st2 ∧
      st2.db = st0.db ∧
      st2.trace = st0.trace ++ [Event.rmdirAttempt aCache.name] ++
        (if true then [Event.printedErr aCache.name] else []) :=
  (C7_rmdir_last_nonfatal_unlogged clockW aCache [] true st0).1 st0
    (by simp [purgeChildren])

/-! ### Claims about the orchestrator `purge_files` -/

/-- The directory-removal attempts recorded in a trace. -/
def rmdirEvents (t : List Event) : List String :=
  t.filterMap (fun e => match e with | .rmdirAttempt p => some p | _ => none)

theorem purgeFile_no_rmdir (clock : Nat → Timestamp) (a : FileAttrs) (st : PState) :
    rmdirEvents (purgeFile clock a st).state.trace = rmdirEvents st.trace := by
  cases hstat : a.stat with
  | statFail => simp [purgeFile, hstat, PRes.state]
  | ok sz =>
    cases hu : a.unlink <;>
      simp [purgeFile, hstat, hu, PRes.state, rmdirEvents, List.filterMap_append]

theorem purgeFileList_no_rmdir (clock : Nat → Timestamp) (files : List FileAttrs) :
    ∀ st, rmdirEvents (purgeFileList clock files st).state.trace = rmdirEvents st.trace := by
  induction files with
  | nil => intro st; simp [purgeFileList, PRes.state]
  | cons f fs ih =>
    intro st
    have hf := purgeFile_no_rmdir clock f st
    cases hpf : purgeFile clock f st with
    | ok st' =>
      rw [hpf] at hf
      simp only [PRes.state] at hf
      simp only [purgeFileList, hpf]
      rw [ih st', hf]
    | raised e st' =>
      rw [hpf] at hf
      simp only [PRes.state] at hf
      simp only [purgeFileList, hpf]
      simpa [PRes.state] using hf

theorem extPass_no_rmdir (clock : Nat → Timestamp) (exts : List String)
    (children : List Entry) :
    ∀ st, rmdirEvents (extPass clock exts children st).state.trace = rmdirEvents st.trace := by
  induction exts with
  | nil => intro st; simp [extPass, PRes.state]
  | cons ext rest ih =>
    intro st
    have hl := purgeFileList_no_rmdir clock
      ((children.filter (extMatches ext)).map Entry.attrs) st
    cases hpl : purgeFileList clock ((children.filter (extMatches ext)).map Entry.attrs) st with
    | ok st' =>
      rw [hpl] at hl
      simp only [PRes.state] at hl
      simp only [extPass, hpl]
      rw [ih st', hl]
    | raised e st' =>
      rw [hpl] at hl
      simp only [PRes.state] at hl
      simp only [extPass, hpl]
      simpa [PRes.state] using hl

def aJunk : FileAttrs := { name := "junk.tmp", stat := .ok 0, unlink := .permissionDenied 1 }

def dirJunk : Entry := .dir aJunk [] false

def childrenC8 : List Entry := [dirJunk]

/-- C8 counterexample: extension globs match names, not kinds — a
directory named `junk.tmp` IS matched by the extension pass for `tmp`, and
is then handed to `purge_file` (its unlink is attempted), refuting
"extension globs only match files, so a directory is never matched by the
extension pass". -/
theorem C8_counterexample :
    (childrenC8.filter (extMatches "tmp")).map Entry.isDir = [true] ∧
    (∃ stf, purgeFiles clockW childrenC8 ["tmp"] [] st0 = .ok stf ∧
      Event.unlinkAttempt "junk.tmp" ∈ stf.trace) := by
  refine ⟨by decide, ⟨_, rfl, ?_⟩⟩
  decide

/-- C8 amended: the extension pass matches entries by name regardless of
kind (directories included) and hands every match to the per-file deleter —
it never recurses into or removes a directory (it emits no
directory-removal attempt); only the `directory_pattern` pass dispatches to
`purge_dir`; and the extension pass runs to completion (or to its aborting
exception) before any directory-pattern purge starts. -/
theorem C8_ext_pass_first_never_recurses (clock : Nat → Timestamp)
    (children : List Entry) (exts pats : List String) (st : PState) :
    (∀ st', extPass clock exts children st = .ok st' →
      purgeFiles clock children exts pats st = patPass clock pats children st') ∧
    (∀ e st', extPass clock exts children st = .raised e st' →
      purgeFiles clock children exts pats st = .raised e st') ∧
    (∀ st', extPass clock exts children st = .ok st' →
      rmdirEvents st'.trace = rmdirEvents st.trace) := by
  refine ⟨fun st' h => ?_, fun e st' h => ?_, fun st' h => ?_⟩
  · simp [purgeFiles, h]
  · simp [purgeFiles, h]
  · have hx := extPass_no_rmdir clock exts children st
    rw [h] at hx
    simpa [PRes.state] using hx

/-- Witness for the amended C8 at the concrete one-directory root. -/
theorem C8_witness :
    purgeFiles clockW childrenC8 ["tmp"] ["junk*"] st0 =
      patPass clockW ["junk*"] childrenC8
        (extPass clockW ["tmp"] childrenC8 st0).state ∧
    rmdirEvents (extPass clockW ["tmp"] childrenC8 st0).state.trace =
      rmdirEvents st0.trace := by
  have h := C8_ext_pass_first_never_recurses clockW childrenC8 ["tmp"] ["junk*"] st0
  have hok : extPass clockW ["tmp"] childrenC8 st0 =
      .ok (extPass clockW ["tmp"] childrenC8 st0).state := by
    rfl
  exact ⟨h.1 _ hok, h.2.2 _ hok⟩
